import Mathlib

/-!
Verification of the inference request lifecycle and tensor-layout conversion of
`dynamic_vino_lib` (files `inferences/base_inference.hpp` and
`models/license_plate_detection_model.hpp`).

The embedding models:
* `cv::Mat` as a pixel grid together with its element-type tag
  (channel count and bit depth), since `mat.at<cv::Vec3b>(h, w)[c]` is an
  element-type-checked access;
* `InferenceEngine::Blob` as a flat buffer with the declared dims
  `width = dims[3]`, `height = dims[2]`, `channels = dims[1]`;
* `matU8ToBlob<T>` as a function parameterized by the external resampling
  primitive (`cv::resize`, the Image Library collaborator) and by the
  element-type conversion `T(...)` applied on assignment;
* `BaseInference` as a record of its fields `engine_`, `max_batch_size_`,
  `enqueued_frames`, `results_fetched_`, `results_`, with the protected
  templated `enqueue` translated from the header.  All C++ `int`/`size_t`
  counters that stay nonnegative and far below their overflow bounds are
  modelled as `Nat`.
Fallible or undefined-behaviour paths (null `engine_` dereference,
out-of-element-type `at<Vec3b>` reads) are modelled with `Option`, `none`
standing for a faulting execution.
-/

/-- A `cv::Mat` color image: spatial dimensions, element-type tag
(`channels` per pixel, `depth` bits per channel; `CV_8UC3` is
`channels = 3, depth = 8`), and the pixel grid.  `pix h w c` is the 8-bit
component `c` of the pixel at row `h`, column `w`. -/
structure Mat where
  width : Nat
  height : Nat
  channels : Nat
  depth : Nat
  pix : Nat → Nat → Nat → Nat

/-- An `InferenceEngine::Blob` input buffer: the declared tensor dims
(`width = getDims()[3]`, `height = getDims()[2]`, `channels = getDims()[1]`)
and the flat memory `data`, indexed as `blob_data[i]`.  `α` is the element
type `T` of `matU8ToBlob<T>`. -/
structure Blob (α : Type) where
  width : Nat
  height : Nat
  channels : Nat
  data : Nat → α

/-- The read `resized_image.at<cv::Vec3b>(h, w)[c]`: an element-type-checked
access that is defined only on a 3-channel 8-bit matrix and only for a
component index `c < 3`; any other combination is a fault (`none`). -/
def vec3bAt (m : Mat) (h w c : Nat) : Option Nat :=
  if m.channels = 3 ∧ m.depth = 8 ∧ c < 3 then some (m.pix h w c) else none

/-- Innermost loop of `matU8ToBlob` (`for w`): processes columns
`w = 0, …, wb-1` of channel `c`, row `h`, writing
`blob_data[batchOffset + c*width*height + h*width + w] = resized.at<Vec3b>(h,w)[c] * scale`
converted by `cast` to the buffer element type. -/
def loopW {α : Type} (img : Mat) (cast : ℚ → α) (scale : ℚ) (batchOffset width height c h : Nat) :
    Nat → (Nat → α) → Option (Nat → α)
  | 0, d => some d
  | wb + 1, d =>
    match loopW img cast scale batchOffset width height c h wb d with
    | none => none
    | some d₁ =>
      match vec3bAt img h wb c with
      | none => none
      | some v =>
        some (fun i =>
          if i = batchOffset + c * width * height + h * width + wb then
            cast ((v : ℚ) * scale)
          else d₁ i)

/-- Middle loop of `matU8ToBlob` (`for h`): processes rows `h = 0, …, hb-1`
of channel `c`, each row by `loopW` over all `width` columns. -/
def loopH {α : Type} (img : Mat) (cast : ℚ → α) (scale : ℚ) (batchOffset width height c : Nat) :
    Nat → (Nat → α) → Option (Nat → α)
  | 0, d => some d
  | hb + 1, d =>
    match loopH img cast scale batchOffset width height c hb d with
    | none => none
    | some d₁ => loopW img cast scale batchOffset width height c hb width d₁

/-- Outermost loop of `matU8ToBlob` (`for c`): processes channels
`c = 0, …, cb-1`, each by `loopH` over all `height` rows. -/
def loopC {α : Type} (img : Mat) (cast : ℚ → α) (scale : ℚ) (batchOffset width height : Nat) :
    Nat → (Nat → α) → Option (Nat → α)
  | 0, d => some d
  | cb + 1, d =>
    match loopC img cast scale batchOffset width height cb d with
    | none => none
    | some d₁ => loopH img cast scale batchOffset width height cb height d₁

/-- The conversion loops of `matU8ToBlob` applied to a given image with no
resize step: writes every `(c, h, w)` with `c < channels`, `h < height`,
`w < width` into the blob's buffer at
`batch_index*width*height*channels + c*width*height + h*width + w`. -/
def convertPixels {α : Type} (cast : ℚ → α) (img : Mat) (blob : Blob α) (scale_factor : ℚ)
    (batch_index : Nat) : Option (Blob α) :=
  match loopC img cast scale_factor (batch_index * blob.width * blob.height * blob.channels)
      blob.width blob.height blob.channels blob.data with
  | none => none
  | some d => some { blob with data := d }

/-- `matU8ToBlob<T>(orig_image, blob, scale_factor, batch_index)` from
`base_inference.hpp`.  `resize` is the external `cv::resize` primitive and
`cast` the conversion to the element type `T`.  The source builds
`resized_image` from `orig_image`, resizes it to the blob's declared
width/height when either spatial dimension differs, then runs the three
nested write loops. -/
def matU8ToBlob {α : Type} (resize : Mat → Nat → Nat → Mat) (cast : ℚ → α) (orig_image : Mat)
    (blob : Blob α) (scale_factor : ℚ) (batch_index : Nat) : Option (Blob α) :=
  let width := blob.width
  let height := blob.height
  let resized_image :=
    if width ≠ orig_image.width ∨ height ≠ orig_image.height then
      resize orig_image width height
    else orig_image
  convertPixels cast resized_image blob scale_factor batch_index

/-! ### Characterisation of the write loops -/

/-- Mixed-radix comparison: a strictly smaller high digit dominates. -/
theorem radix_lt {a b r s R : Nat} (hab : a < b) (hr : r < R) :
    a * R + r < b * R + s :=
  calc a * R + r < a * R + R := Nat.add_lt_add_left hr _
    _ = (a + 1) * R := (Nat.succ_mul a R).symm
    _ ≤ b * R := Nat.mul_le_mul_right R hab
    _ ≤ b * R + s := Nat.le_add_right _ _

theorem vec3bAt_some {m : Mat} {c : Nat} (h3 : m.channels = 3) (h8 : m.depth = 8)
    (hc : c < 3) (h w : Nat) : vec3bAt m h w c = some (m.pix h w c) := by
  simp [vec3bAt, h3, h8, hc]

theorem vec3bAt_none {m : Mat} {c : Nat} (hbad : ¬(m.channels = 3 ∧ m.depth = 8 ∧ c < 3))
    (h w : Nat) : vec3bAt m h w c = none := by
  simp only [vec3bAt, if_neg hbad]

theorem loopW_some {α : Type} {img : Mat} (cast : ℚ → α) (s : ℚ) (B W H c h : Nat)
    (h3 : img.channels = 3) (h8 : img.depth = 8) (hc : c < 3) :
    ∀ (wb : Nat) (d : Nat → α), ∃ d',
      loopW img cast s B W H c h wb d = some d' ∧
      (∀ w, w < wb → d' (B + c * W * H + h * W + w) = cast ((img.pix h w c : ℚ) * s)) ∧
      (∀ i, (∀ w, w < wb → i ≠ B + c * W * H + h * W + w) → d' i = d i) := by
  intro wb
  induction wb with
  | zero =>
    intro d
    exact ⟨d, rfl, fun w hw => absurd hw (Nat.not_lt_zero w), fun i _ => rfl⟩
  | succ wb ih =>
    intro d
    obtain ⟨d₁, hd₁, hval₁, hout₁⟩ := ih d
    refine ⟨fun i => if i = B + c * W * H + h * W + wb then
        cast ((img.pix h wb c : ℚ) * s) else d₁ i, ?_, ?_, ?_⟩
    · rw [loopW, hd₁, vec3bAt_some h3 h8 hc]
    · intro w hw
      rcases Nat.lt_succ_iff_lt_or_eq.1 hw with hlt | rfl
      · have hne : B + c * W * H + h * W + w ≠ B + c * W * H + h * W + wb := by omega
        simp only [if_neg hne]
        exact hval₁ w hlt
      · simp
    · intro i hi
      have hne : i ≠ B + c * W * H + h * W + wb := hi wb (Nat.lt_succ_self wb)
      simp only [if_neg hne]
      exact hout₁ i (fun w hw => hi w (Nat.lt_succ_of_lt hw))

theorem loopW_none {α : Type} {img : Mat} (cast : ℚ → α) (s : ℚ) (B W H c h : Nat)
    (hbad : ¬(img.channels = 3 ∧ img.depth = 8 ∧ c < 3)) {wb : Nat} (hwb : 0 < wb)
    (d : Nat → α) : loopW img cast s B W H c h wb d = none := by
  obtain ⟨wb', rfl⟩ : ∃ wb', wb = wb' + 1 := ⟨wb - 1, by omega⟩
  rw [loopW]
  cases hrec : loopW img cast s B W H c h wb' d with
  | none => rfl
  | some d₁ => rw [vec3bAt_none hbad]

theorem loopH_some {α : Type} {img : Mat} (cast : ℚ → α) (s : ℚ) (B W H c : Nat)
    (h3 : img.channels = 3) (h8 : img.depth = 8) (hc : c < 3) :
    ∀ (hb : Nat) (d : Nat → α), ∃ d',
      loopH img cast s B W H c hb d = some d' ∧
      (∀ h w, h < hb → w < W →
        d' (B + c * W * H + h * W + w) = cast ((img.pix h w c : ℚ) * s)) ∧
      (∀ i, (∀ h w, h < hb → w < W → i ≠ B + c * W * H + h * W + w) → d' i = d i) := by
  intro hb
  induction hb with
  | zero =>
    intro d
    exact ⟨d, rfl, fun h w hh _ => absurd hh (Nat.not_lt_zero h), fun i _ => rfl⟩
  | succ hb ih =>
    intro d
    obtain ⟨d₁, hd₁, hval₁, hout₁⟩ := ih d
    obtain ⟨d₂, hd₂, hval₂, hout₂⟩ := loopW_some cast s B W H c hb h3 h8 hc W d₁
    refine ⟨d₂, ?_, ?_, ?_⟩
    · rw [loopH, hd₁]
      exact hd₂
    · intro h w hh hw
      rcases Nat.lt_succ_iff_lt_or_eq.1 hh with hlt | rfl
      · have hpres : d₂ (B + c * W * H + h * W + w) = d₁ (B + c * W * H + h * W + w) := by
          refine hout₂ _ (fun w' hw' => ?_)
          have : h * W + w < hb * W + w' := radix_lt hlt hw
          omega
        rw [hpres]
        exact hval₁ h w hlt hw
      · exact hval₂ w hw
    · intro i hi
      have h₂ : d₂ i = d₁ i :=
        hout₂ i (fun w hw => hi hb w (Nat.lt_succ_self hb) hw)
      rw [h₂]
      exact hout₁ i (fun h w hh hw => hi h w (Nat.lt_succ_of_lt hh) hw)

theorem loopH_none {α : Type} {img : Mat} (cast : ℚ → α) (s : ℚ) (B W H c : Nat)
    (hbad : ¬(img.channels = 3 ∧ img.depth = 8 ∧ c < 3)) {hb : Nat} (hhb : 0 < hb)
    (hW : 0 < W) (d : Nat → α) : loopH img cast s B W H c hb d = none := by
  obtain ⟨hb', rfl⟩ : ∃ hb', hb = hb' + 1 := ⟨hb - 1, by omega⟩
  rw [loopH]
  cases hrec : loopH img cast s B W H c hb' d with
  | none => rfl
  | some d₁ => exact loopW_none cast s B W H c hb' hbad hW d₁

theorem chanRow_lt {W H c₁ h₁ w₁ c₂ h₂ w₂ : Nat} (hc : c₁ < c₂) (hh : h₁ < H)
    (hw : w₁ < W) : c₁ * W * H + h₁ * W + w₁ < c₂ * W * H + h₂ * W + w₂ := by
  have hr : h₁ * W + w₁ < W * H := by
    calc h₁ * W + w₁ < h₁ * W + W := Nat.add_lt_add_left hw _
      _ = (h₁ + 1) * W := (Nat.succ_mul h₁ W).symm
      _ ≤ H * W := Nat.mul_le_mul_right W hh
      _ = W * H := Nat.mul_comm H W
  calc c₁ * W * H + h₁ * W + w₁ = c₁ * (W * H) + (h₁ * W + w₁) := by ring
    _ < c₂ * (W * H) + (h₂ * W + w₂) := radix_lt hc hr
    _ = c₂ * W * H + h₂ * W + w₂ := by ring

theorem chan_off_ne {B W H c₁ h₁ w₁ c₂ h₂ w₂ : Nat} (hc : c₁ < c₂) (hh : h₁ < H)
    (hw : w₁ < W) : B + c₁ * W * H + h₁ * W + w₁ ≠ B + c₂ * W * H + h₂ * W + w₂ := by
  have h1 : c₁ * W * H + h₁ * W + w₁ < c₂ * W * H + h₂ * W + w₂ := chanRow_lt hc hh hw
  omega

theorem loopC_some {α : Type} {img : Mat} (cast : ℚ → α) (s : ℚ) (B W H : Nat)
    (h3 : img.channels = 3) (h8 : img.depth = 8) :
    ∀ (cb : Nat), cb ≤ 3 → ∀ (d : Nat → α), ∃ d',
      loopC img cast s B W H cb d = some d' ∧
      (∀ c h w, c < cb → h < H → w < W →
        d' (B + c * W * H + h * W + w) = cast ((img.pix h w c : ℚ) * s)) ∧
      (∀ i, (∀ c h w, c < cb → h < H → w < W → i ≠ B + c * W * H + h * W + w) →
        d' i = d i) := by
  intro cb
  induction cb with
  | zero =>
    intro _ d
    exact ⟨d, rfl, fun c h w hc _ _ => absurd hc (Nat.not_lt_zero c), fun i _ => rfl⟩
  | succ cb ih =>
    intro hcb d
    obtain ⟨d₁, hd₁, hval₁, hout₁⟩ := ih (by omega) d
    obtain ⟨d₂, hd₂, hval₂, hout₂⟩ :=
      loopH_some cast s B W H cb h3 h8 (by omega) H d₁
    refine ⟨d₂, ?_, ?_, ?_⟩
    · rw [loopC, hd₁]
      exact hd₂
    · intro c h w hc hh hw
      rcases Nat.lt_succ_iff_lt_or_eq.1 hc with hlt | rfl
      · have hpres : d₂ (B + c * W * H + h * W + w) = d₁ (B + c * W * H + h * W + w) := by
          refine hout₂ _ (fun h' w' hh' hw' => ?_)
          exact chan_off_ne hlt hh hw
        rw [hpres]
        exact hval₁ c h w hlt hh hw
      · exact hval₂ h w hh hw
    · intro i hi
      have h₂ : d₂ i = d₁ i :=
        hout₂ i (fun h w hh hw => hi cb h w (Nat.lt_succ_self cb) hh hw)
      rw [h₂]
      exact hout₁ i (fun c h w hc hh hw => hi c h w (Nat.lt_succ_of_lt hc) hh hw)

theorem loopC_none {α : Type} {img : Mat} (cast : ℚ → α) (s : ℚ) (B W H : Nat)
    (hH : 0 < H) (hW : 0 < W) {cb c : Nat} (hcb : c < cb)
    (hbad : ¬(img.channels = 3 ∧ img.depth = 8 ∧ c < 3)) (d : Nat → α) :
    loopC img cast s B W H cb d = none := by
  obtain ⟨cb', rfl⟩ : ∃ cb', cb = cb' + 1 := ⟨cb - 1, by omega⟩
  have hbad' : ¬(img.channels = 3 ∧ img.depth = 8 ∧ cb' < 3) := by
    rintro ⟨ha, hb, hlt⟩
    exact hbad ⟨ha, hb, by omega⟩
  rw [loopC]
  cases loopC img cast s B W H cb' d with
  | none => rfl
  | some d₁ => exact loopH_none cast s B W H cb' hbad' hH hW d₁

/-- The conversion loop succeeds on a `CV_8UC3` source whenever the declared
channel count is at most 3, and then writes each `(c, h, w)` at the planar
offset with the scaled pixel value, leaving every other buffer cell
untouched. -/
theorem convertPixels_some {α : Type} (cast : ℚ → α) {img : Mat} (blob : Blob α)
    (s : ℚ) (b : Nat) (h3 : img.channels = 3) (h8 : img.depth = 8)
    (hC : blob.channels ≤ 3) : ∃ blob',
      convertPixels cast img blob s b = some blob' ∧
      blob'.width = blob.width ∧ blob'.height = blob.height ∧
      blob'.channels = blob.channels ∧
      (∀ c h w, c < blob.channels → h < blob.height → w < blob.width →
        blob'.data (b * blob.width * blob.height * blob.channels +
            c * blob.width * blob.height + h * blob.width + w) =
          cast ((img.pix h w c : ℚ) * s)) ∧
      (∀ i, (∀ c h w, c < blob.channels → h < blob.height → w < blob.width →
          i ≠ b * blob.width * blob.height * blob.channels +
            c * blob.width * blob.height + h * blob.width + w) →
        blob'.data i = blob.data i) := by
  obtain ⟨d', hd', hval, hout⟩ :=
    loopC_some cast s (b * blob.width * blob.height * blob.channels)
      blob.width blob.height h3 h8 blob.channels hC blob.data
  refine ⟨{ blob with data := d' }, ?_, rfl, rfl, rfl, ?_, ?_⟩
  · rw [convertPixels, hd']
  · intro c h w hc hh hw
    exact hval c h w hc hh hw
  · intro i hi
    exact hout i hi

theorem convertPixels_none {α : Type} (cast : ℚ → α) {img : Mat} (blob : Blob α)
    (s : ℚ) (b : Nat) (hH : 0 < blob.height) (hW : 0 < blob.width) {c : Nat}
    (hc : c < blob.channels) (hbad : ¬(img.channels = 3 ∧ img.depth = 8 ∧ c < 3)) :
    convertPixels cast img blob s b = none := by
  rw [convertPixels,
    loopC_none cast s (b * blob.width * blob.height * blob.channels)
      blob.width blob.height hH hW hc hbad blob.data]

/-- When the source's spatial dimensions already equal the blob's declared
width and height, `matU8ToBlob` skips the resize and converts the original
image directly. -/
theorem matU8ToBlob_dims_eq {α : Type} (resize : Mat → Nat → Nat → Mat)
    (cast : ℚ → α) {img : Mat} {blob : Blob α} (s : ℚ) (b : Nat)
    (hw : blob.width = img.width) (hh : blob.height = img.height) :
    matU8ToBlob resize cast img blob s b = convertPixels cast img blob s b := by
  rw [matU8ToBlob]
  simp only [hw, hh, ne_eq, not_true_eq_false, or_self, if_false, ite_false]

/-- When either spatial dimension differs, `matU8ToBlob` converts the image
produced by the resampling primitive at the blob's declared size. -/
theorem matU8ToBlob_dims_ne {α : Type} (resize : Mat → Nat → Nat → Mat)
    (cast : ℚ → α) {img : Mat} {blob : Blob α} (s : ℚ) (b : Nat)
    (hne : blob.width ≠ img.width ∨ blob.height ≠ img.height) :
    matU8ToBlob resize cast img blob s b =
      convertPixels cast (resize img blob.width blob.height) blob s b := by
  rw [matU8ToBlob]
  rw [if_pos hne]

/-! ### The inference engine (`dynamic_vino_lib` namespace of `base_inference.hpp`) -/

/-- A `cv::Rect` (x, y, width, height), the placement rectangle of an
enqueued frame in the coordinate space of the original input frame. -/
structure Rect where
  x : Int
  y : Int
  width : Int
  height : Int
deriving DecidableEq

/-- `dynamic_vino_lib::Result`: the base detection result, holding the
private field `location_`. -/
structure Result where
  location_ : Rect
deriving DecidableEq

/-- `Result::Result(const cv::Rect & location)`.  Modelled from the spec:
the constructor body is not part of the excerpt; per the data model a
`Result` is "an immutable value representing one detection/inference
outcome's spatial locality: a rectangle … in the coordinate space of the
original input frame", so construction stores the given rectangle. -/
def Result.make (location : Rect) : Result :=
  { location_ := location }

/-- `Result::getLocation()` (inline in the header): returns `location_`. -/
def Result.getLocation (r : Result) : Rect :=
  r.location_

/-- An `Engines::Engine`: the Execution Backend handle.  The core only uses
`engine_->getRequest()->GetBlob(name)`, so the model is the map from tensor
names to the request's named input buffers. -/
structure Engine (α : Type) where
  blobs : String → Blob α

/-- The fields of `class BaseInference`: `engine_` (a nullable shared
pointer), `max_batch_size_` (initialised to 1), `enqueued_frames`
(initialised to 0), `results_fetched_` (initialised to false) and the
protected result buffer `results_`. -/
structure BaseInference (α : Type) where
  engine_ : Option (Engine α) := none
  max_batch_size_ : Nat := 1
  enqueued_frames : Nat := 0
  results_fetched_ : Bool := false
  results_ : List Result := []

/-- `BaseInference::getEnqueuedNum()` (inline in the header). -/
def BaseInference.getEnqueuedNum {α : Type} (st : BaseInference α) : Nat :=
  st.enqueued_frames

/-- `BaseInference::setMaxBatchSize(int)` (inline in the header). -/
def BaseInference.setMaxBatchSize {α : Type} (st : BaseInference α)
    (max_batch_size : Nat) : BaseInference α :=
  { st with max_batch_size_ := max_batch_size }

/-- `BaseInference::loadEngine(std::shared_ptr<Engines::Engine>)`.
Modelled from the spec: the body is not part of the excerpt; per the spec
`loadEngine(backend)` "attaches a backend to the core", i.e. stores the
shared handle in `engine_`. -/
def BaseInference.loadEngine {α : Type} (st : BaseInference α) (engine : Engine α) :
    BaseInference α :=
  { st with engine_ := some engine }

/-- The protected templated
`BaseInference::enqueue<T>(frame, rect, scale_factor, batch_index, input_name)`
from the header.  If `enqueued_frames == max_batch_size_` it warns and
returns `false`, leaving the state untouched.  Otherwise it dereferences
`engine_` (a fault, `none`, when no engine was loaded), fetches the request's
blob named `input_name`, runs `matU8ToBlob<T>` into it (a fault when that
faults), and increments `enqueued_frames`.  The `cv::Rect` parameter is
unnamed in the source and unused. -/
def BaseInference.enqueue {α : Type} (resize : Mat → Nat → Nat → Mat) (cast : ℚ → α)
    (st : BaseInference α) (frame : Mat) (rect : Rect) (scale_factor : ℚ)
    (batch_index : Nat) (input_name : String) : Option (Bool × BaseInference α) :=
  if st.enqueued_frames = st.max_batch_size_ then
    some (false, st)
  else
    match st.engine_ with
    | none => none
    | some eng =>
      match matU8ToBlob resize cast frame (eng.blobs input_name) scale_factor batch_index with
      | none => none
      | some input_blob =>
        some (true,
          { st with
            engine_ := some ⟨fun n => if n = input_name then input_blob else eng.blobs n⟩,
            enqueued_frames := st.enqueued_frames + 1 })

/-- `BaseInference::submitRequest()`.  Modelled from the spec: the body is
not part of the excerpt; per the spec `submit()` "triggers backend
execution" and "fails if no backend is bound", returning a success flag to
the immediate caller and leaving the enqueued-frame buffer in place. -/
def BaseInference.submitRequest {α : Type} (st : BaseInference α) :
    Bool × BaseInference α :=
  match st.engine_ with
  | none => (false, st)
  | some _ => (true, st)

/-- `BaseInference::fetchResults()`.  Modelled from the spec: the body is
not part of the excerpt; per the spec `fetchResults()` "parses the backend's
named output tensor into zero or more `Result` records (model-specific
parsing delegated to subclasses), clears the enqueued-frame buffer, resets
enqueued count to 0, sets an internal results-fetched flag".  `parse`
abstracts the model-specific output parsing. -/
def BaseInference.fetchResults {α : Type} (parse : Engine α → List Result)
    (st : BaseInference α) : BaseInference α :=
  { st with
    enqueued_frames := 0,
    results_fetched_ := true,
    results_ :=
      match st.engine_ with
      | none => []
      | some eng => parse eng }

/-- A run of successful enqueue calls: performs `n` calls of the protected
`enqueue` with the same frame and parameters, requiring every call to
return `true`; `none` if any call faults or is rejected. -/
def repeatEnqueue {α : Type} (resize : Mat → Nat → Nat → Mat) (cast : ℚ → α)
    (frame : Mat) (rect : Rect) (scale_factor : ℚ) (batch_index : Nat)
    (input_name : String) : Nat → BaseInference α → Option (BaseInference α)
  | 0, st => some st
  | n + 1, st =>
    match BaseInference.enqueue resize cast st frame rect scale_factor batch_index input_name with
    | some (true, st') => repeatEnqueue resize cast frame rect scale_factor batch_index input_name n st'
    | _ => none

/-! ### The request lifecycle state machine (spec §4.3) -/

/-- The lifecycle states of one inference unit. -/
inductive Phase where
  | Idle
  | Enqueuing
  | Submitted
deriving DecidableEq

/-- A wrong-state operation call: a logic fault, not a recoverable value. -/
inductive LifecycleFault where
  | PreconditionViolation
deriving DecidableEq

/-- Modelled from the spec: the phase transition of `submit()`, whose body is
not part of the excerpt.  "valid only in `Enqueuing`", transitions to
`Submitted`; calling it in any other state is a precondition violation that
fails loudly. -/
def submitPhase : Phase → Except LifecycleFault Phase
  | Phase.Enqueuing => Except.ok Phase.Submitted
  | _ => Except.error LifecycleFault.PreconditionViolation

/-- Modelled from the spec: the phase transition of `fetchResults()`, whose
body is not part of the excerpt.  "valid only in `Submitted`", transitions
to `Idle`; calling it in any other state is a precondition violation that
fails loudly. -/
def fetchPhase : Phase → Except LifecycleFault Phase
  | Phase.Submitted => Except.ok Phase.Idle
  | _ => Except.error LifecycleFault.PreconditionViolation

/-! ### The license-plate model (`license_plate_detection_model.hpp`) -/

/-- `LicensePlateDetectionModel::max_sequence_size_`, a `const int` fixed at
construction: "up to 88 items per license plate, ended with -1". -/
def LicensePlateDetectionModel.max_sequence_size : Nat := 88

/-- The sentinel terminating a decoded license-plate sequence. -/
def licensePlateSentinel : Int := -1

/-- Modelled from the spec: the license-plate output decoding, whose routine
is not part of the excerpt.  Per the spec, decoded output is "treated as
padding terminated by a sentinel value" and the declared maximum is "never
exceeded": entries are taken in order until the sentinel or the declared
maximum, whichever comes first.  `output i` is the i-th decoded value. -/
def decodeSequence (output : Nat → Int) : Nat → Nat → List Int
  | _, 0 => []
  | i, fuel + 1 =>
    if output i = licensePlateSentinel then []
    else output i :: decodeSequence output (i + 1) fuel

/-- Decoding the license-plate output from position 0 with the model's
declared maximum sequence size. -/
def decodeLicensePlate (output : Nat → Int) : List Int :=
  decodeSequence output 0 LicensePlateDetectionModel.max_sequence_size

/-! ### Engine-level lemmas -/

/-- An enqueue call on a full engine warns and rejects: `false`, state
untouched. -/
theorem enqueue_full {α : Type} (resize : Mat → Nat → Nat → Mat) (cast : ℚ → α)
    (st : BaseInference α) (frame : Mat) (rect : Rect) (s : ℚ) (b : Nat)
    (name : String) (h : st.enqueued_frames = st.max_batch_size_) :
    BaseInference.enqueue resize cast st frame rect s b name = some (false, st) := by
  rw [BaseInference.enqueue, if_pos h]

/-- A below-capacity enqueue call on a bound engine with a compatible frame
succeeds: it returns `true`, stores the converted frame in the blob named
`input_name`, increments the count by one and leaves every other field and
every blob's declared dims unchanged. -/
theorem enqueue_success {α : Type} (resize : Mat → Nat → Nat → Mat) (cast : ℚ → α)
    {st : BaseInference α} {eng : Engine α} (heng : st.engine_ = some eng)
    (hne : st.enqueued_frames ≠ st.max_batch_size_) (frame : Mat) (rect : Rect)
    (s : ℚ) (b : Nat) (name : String) (h3 : frame.channels = 3)
    (h8 : frame.depth = 8) (hw : (eng.blobs name).width = frame.width)
    (hh : (eng.blobs name).height = frame.height)
    (hC : (eng.blobs name).channels ≤ 3) :
    ∃ (blob' : Blob α),
      matU8ToBlob resize cast frame (eng.blobs name) s b = some blob' ∧
      blob'.width = (eng.blobs name).width ∧
      blob'.height = (eng.blobs name).height ∧
      blob'.channels = (eng.blobs name).channels ∧
      BaseInference.enqueue resize cast st frame rect s b name = some (true,
        { st with
          engine_ := some ⟨fun n => if n = name then blob' else eng.blobs n⟩,
          enqueued_frames := st.enqueued_frames + 1 }) := by
  obtain ⟨blob', hblob', hbw, hbh, hbc, hval, hout⟩ :=
    convertPixels_some cast (eng.blobs name) s b h3 h8 hC
  have hmat : matU8ToBlob resize cast frame (eng.blobs name) s b = some blob' := by
    rw [matU8ToBlob_dims_eq resize cast s b hw hh, hblob']
  refine ⟨blob', hmat, hbw, hbh, hbc, ?_⟩
  simp only [BaseInference.enqueue, if_neg hne, heng, hmat]

/-- Iterating `n` enqueue calls from a state with room for `n` more frames
succeeds and adds exactly `n` to the count, preserving the declared dims of
the target blob, the capacity and the remaining fields. -/
theorem repeatEnqueue_ok {α : Type} (resize : Mat → Nat → Nat → Mat) (cast : ℚ → α)
    (frame : Mat) (rect : Rect) (s : ℚ) (b : Nat) (name : String)
    (h3 : frame.channels = 3) (h8 : frame.depth = 8) :
    ∀ (n : Nat) (st : BaseInference α) (eng : Engine α), st.engine_ = some eng →
      (eng.blobs name).width = frame.width →
      (eng.blobs name).height = frame.height →
      (eng.blobs name).channels ≤ 3 →
      st.enqueued_frames + n ≤ st.max_batch_size_ →
      ∃ (st' : BaseInference α) (eng' : Engine α),
        repeatEnqueue resize cast frame rect s b name n st = some st' ∧
        st'.engine_ = some eng' ∧
        (eng'.blobs name).width = frame.width ∧
        (eng'.blobs name).height = frame.height ∧
        (eng'.blobs name).channels ≤ 3 ∧
        st'.enqueued_frames = st.enqueued_frames + n ∧
        st'.max_batch_size_ = st.max_batch_size_ := by
  intro n
  induction n with
  | zero =>
    intro st eng heng hbw hbh hbc _
    exact ⟨st, eng, rfl, heng, hbw, hbh, hbc, rfl, rfl⟩
  | succ n ih =>
    intro st eng heng hbw hbh hbc hroom
    have hne : st.enqueued_frames ≠ st.max_batch_size_ := by omega
    obtain ⟨blob', hmat, hw', hh', hc', henq⟩ :=
      enqueue_success resize cast heng hne frame rect s b name h3 h8 hbw hbh hbc
    set st₁ : BaseInference α :=
      { st with
        engine_ := some ⟨fun n => if n = name then blob' else eng.blobs n⟩,
        enqueued_frames := st.enqueued_frames + 1 } with hst₁
    obtain ⟨st', eng', hrep, heng', hbw', hbh', hbc', hcnt, hmax⟩ :=
      ih st₁ ⟨fun n => if n = name then blob' else eng.blobs n⟩ rfl
        (by simp [hw', hbw]) (by simp [hh', hbh]) (by simp [hc', hbc])
        (by simp [hst₁]; omega)
    refine ⟨st', eng', ?_, heng', hbw', hbh', hbc', ?_, ?_⟩
    · rw [repeatEnqueue, henq]
      exact hrep
    · simp only [hcnt, hst₁]
      omega
    · simpa [hst₁] using hmax

/-! ### Decoding lemmas -/

theorem decodeSequence_length_of_sentinel (output : Nat → Int) :
    ∀ (fuel i k : Nat), k < fuel →
      output (i + k) = licensePlateSentinel →
      (∀ j, j < k → output (i + j) ≠ licensePlateSentinel) →
      (decodeSequence output i fuel).length = k := by
  intro fuel
  induction fuel with
  | zero => intro i k hk; omega
  | succ fuel ih =>
    intro i k hk hsent hbefore
    cases k with
    | zero =>
      have h0 : output i = licensePlateSentinel := by simpa using hsent
      simp [decodeSequence, h0]
    | succ k =>
      have h0 : output i ≠ licensePlateSentinel := by
        have := hbefore 0 (Nat.succ_pos k)
        simpa using this
      rw [decodeSequence, if_neg h0]
      have hsent' : output (i + 1 + k) = licensePlateSentinel := by
        have harg : i + 1 + k = i + (k + 1) := by omega
        rw [harg]; exact hsent
      have hbefore' : ∀ j, j < k → output (i + 1 + j) ≠ licensePlateSentinel := by
        intro j hj
        have harg : i + 1 + j = i + (j + 1) := by omega
        rw [harg]
        exact hbefore (j + 1) (by omega)
      rw [List.length_cons, ih (i + 1) k (by omega) hsent' hbefore']

theorem decodeSequence_length_le (output : Nat → Int) :
    ∀ (fuel i : Nat), (decodeSequence output i fuel).length ≤ fuel := by
  intro fuel
  induction fuel with
  | zero => intro i; simp [decodeSequence]
  | succ fuel ih =>
    intro i
    rw [decodeSequence]
    by_cases h : output i = licensePlateSentinel
    · simp [h]
    · rw [if_neg h, List.length_cons]
      exact Nat.succ_le_succ (ih (i + 1))

/-! ### Concrete fixtures for witnesses and tests -/

/-- A resampling primitive for tests; it is never consulted when the
dimensions already match. -/
def idResize : Mat → Nat → Nat → Mat := fun m _ _ => m

/-- The spec's 2×2 synthetic test image, values `[[10,20],[30,40]]`, stored
as a 3-channel 8-bit image with equal components (a single-channel payload
read through component 0 by the 2×2×1 buffer). -/
def testMat : Mat :=
  { width := 2, height := 2, channels := 3, depth := 8,
    pix := fun h w _ =>
      if h = 0 then (if w = 0 then 10 else 20) else (if w = 0 then 30 else 40) }

/-- A 2×2×1 destination buffer over ℚ, zero-initialised. -/
def testBlob : Blob ℚ :=
  { width := 2, height := 2, channels := 1, data := fun _ => 0 }

/-- A placement rectangle used in witnesses. -/
def testRect : Rect :=
  { x := 0, y := 0, width := 4, height := 4 }

/-- An engine whose every named blob is the 2×2×1 test buffer. -/
def testEngine : Engine ℚ :=
  { blobs := fun _ => testBlob }

/-- A full engine state (capacity 1, one frame enqueued). -/
def fullState : BaseInference ℚ :=
  { engine_ := some testEngine, max_batch_size_ := 1, enqueued_frames := 1,
    results_fetched_ := false, results_ := [] }

/-- A freshly loaded engine state (capacity 2, nothing enqueued). -/
def freshState : BaseInference ℚ :=
  { engine_ := some testEngine, max_batch_size_ := 2, enqueued_frames := 0,
    results_fetched_ := false, results_ := [] }

/-- A default-constructed state: no engine loaded. -/
def unboundState : BaseInference ℚ :=
  { engine_ := none, max_batch_size_ := 1, enqueued_frames := 0,
    results_fetched_ := false, results_ := [] }

/-! ### The claims -/

/-- C1: in every engine state whose enqueued-frame count equals
`max_batch_size_`, a further `enqueue` call returns failure (`false`) and
leaves the whole state — in particular the enqueued count — unchanged; the
frame is rejected, not silently dropped or truncated. -/
theorem claim_C1 {α : Type} (resize : Mat → Nat → Nat → Mat) (cast : ℚ → α)
    (st : BaseInference α) (frame : Mat) (rect : Rect) (s : ℚ) (b : Nat)
    (name : String) (h : st.enqueued_frames = st.max_batch_size_) :
    BaseInference.enqueue resize cast st frame rect s b name = some (false, st) :=
  enqueue_full resize cast st frame rect s b name h

theorem claim_C1_witness :
    fullState.enqueued_frames = fullState.max_batch_size_ ∧
    BaseInference.enqueue idResize id fullState testMat testRect 1 0 "input" =
      some (false, fullState) :=
  ⟨rfl, claim_C1 idResize id fullState testMat testRect 1 0 "input" rfl⟩

/-- C2: when the source's spatial dimensions equal the destination's, the
conversion writes `cast (source_pixel[h][w][c] * s)` at destination offset
`b*width*height*channels + c*width*height + h*width + w`; on the spec's 2×2
test image `[[10,20],[30,40]]` with scale 1 at batch 0 the buffer reads
`[10,20,30,40]`, and with scale 2 it reads `[20,40,60,80]`. -/
theorem claim_C2 :
    (∀ (α : Type) (resize : Mat → Nat → Nat → Mat) (cast : ℚ → α) (frame : Mat)
      (blob : Blob α) (s : ℚ) (b c h w : Nat),
      blob.width = frame.width → blob.height = frame.height →
      frame.channels = 3 → frame.depth = 8 → blob.channels ≤ 3 →
      c < blob.channels → h < blob.height → w < blob.width →
      ∃ blob', matU8ToBlob resize cast frame blob s b = some blob' ∧
        blob'.data (b * blob.width * blob.height * blob.channels +
            c * blob.width * blob.height + h * blob.width + w) =
          cast ((frame.pix h w c : ℚ) * s)) ∧
    (matU8ToBlob idResize id testMat testBlob 1 0).map
      (fun blobOut => (blobOut.data 0, blobOut.data 1, blobOut.data 2, blobOut.data 3)) =
      some (10, 20, 30, 40) ∧
    (matU8ToBlob idResize id testMat testBlob 2 0).map
      (fun blobOut => (blobOut.data 0, blobOut.data 1, blobOut.data 2, blobOut.data 3)) =
      some (20, 40, 60, 80) := by
  refine ⟨?_, ?_, ?_⟩
  · intro α resize cast frame blob s b c h w hbw hbh h3 h8 hC hc hh hw
    obtain ⟨blob', heq, _, _, _, hval, _⟩ := convertPixels_some cast blob s b h3 h8 hC
    exact ⟨blob', by rw [matU8ToBlob_dims_eq resize cast s b hbw hbh, heq],
      hval c h w hc hh hw⟩
  · simp only [matU8ToBlob, convertPixels, loopC, loopH, loopW, vec3bAt, testMat,
      testBlob, idResize]
    norm_num
  · simp only [matU8ToBlob, convertPixels, loopC, loopH, loopW, vec3bAt, testMat,
      testBlob, idResize]
    norm_num

theorem claim_C2_witness :
    ∃ blob', matU8ToBlob idResize id testMat testBlob 1 0 = some blob' ∧
      blob'.data (0 * testBlob.width * testBlob.height * testBlob.channels +
          0 * testBlob.width * testBlob.height + 0 * testBlob.width + 0) =
        id ((testMat.pix 0 0 0 : ℚ) * 1) :=
  claim_C2.1 ℚ idResize id testMat testBlob 1 0 0 0 0 rfl rfl rfl rfl
    (by decide) (by decide) (by decide) (by decide)

/-- C3 (counterexample): the protected `enqueue` never records the placement
rectangle — its `cv::Rect` parameter is unnamed and unused — so a successful
enqueue of the same frame with two different rectangles produces identical
results; nothing of the rectangle is retained. -/
theorem claim_C3_counterexample :
    BaseInference.enqueue idResize id freshState testMat
        { x := 0, y := 0, width := 1, height := 1 } 1 0 "input" =
      BaseInference.enqueue idResize id freshState testMat
        { x := 9, y := 9, width := 9, height := 9 } 1 0 "input" ∧
    ({ x := 0, y := 0, width := 1, height := 1 } : Rect) ≠
      { x := 9, y := 9, width := 9, height := 9 } ∧
    (BaseInference.enqueue idResize id freshState testMat
        { x := 0, y := 0, width := 1, height := 1 } 1 0 "input").map Prod.fst =
      some true := by
  refine ⟨rfl, by decide, ?_⟩
  obtain ⟨blob', hmat, _, _, _, henq⟩ :=
    enqueue_success idResize id (rfl : freshState.engine_ = some testEngine)
      (by decide) testMat { x := 0, y := 0, width := 1, height := 1 } 1 0 "input"
      rfl rfl rfl rfl (by decide)
  rw [henq]
  rfl

/-- C3 (amended): on every successful enqueue call (count below capacity,
engine bound, compatible frame) the engine writes the converted frame into
the backend blob named `input_name` at the given batch index and increments
the enqueued count by exactly one; the placement-rectangle parameter is
accepted but ignored by this base-class routine (recording it is left to
subclasses, which are outside the excerpt). -/
theorem claim_C3 {α : Type} (resize : Mat → Nat → Nat → Mat) (cast : ℚ → α)
    {st : BaseInference α} {eng : Engine α} (frame : Mat) (rect : Rect) (s : ℚ)
    (b : Nat) (name : String) (heng : st.engine_ = some eng)
    (hne : st.enqueued_frames ≠ st.max_batch_size_) (h3 : frame.channels = 3)
    (h8 : frame.depth = 8) (hw : (eng.blobs name).width = frame.width)
    (hh : (eng.blobs name).height = frame.height)
    (hC : (eng.blobs name).channels ≤ 3) :
    ∃ blob', matU8ToBlob resize cast frame (eng.blobs name) s b = some blob' ∧
      BaseInference.enqueue resize cast st frame rect s b name = some (true,
        { st with
          engine_ := some ⟨fun n => if n = name then blob' else eng.blobs n⟩,
          enqueued_frames := st.enqueued_frames + 1 }) ∧
      (∀ rect', BaseInference.enqueue resize cast st frame rect' s b name =
        BaseInference.enqueue resize cast st frame rect s b name) := by
  obtain ⟨blob', hmat, _, _, _, henq⟩ :=
    enqueue_success resize cast heng hne frame rect s b name h3 h8 hw hh hC
  exact ⟨blob', hmat, henq, fun rect' => rfl⟩

theorem claim_C3_witness :
    ∃ blob', matU8ToBlob idResize id testMat (testEngine.blobs "input") 1 0 = some blob' ∧
      BaseInference.enqueue idResize id freshState testMat testRect 1 0 "input" =
        some (true,
          { freshState with
            engine_ := some ⟨fun n => if n = "input" then blob' else testEngine.blobs n⟩,
            enqueued_frames := freshState.enqueued_frames + 1 }) ∧
      (∀ rect', BaseInference.enqueue idResize id freshState testMat rect' 1 0 "input" =
        BaseInference.enqueue idResize id freshState testMat testRect 1 0 "input") :=
  claim_C3 idResize id testMat testRect 1 0 "input"
    (rfl : freshState.engine_ = some testEngine) (by decide) rfl rfl rfl rfl (by decide)

/-- C4: the conversion resizes exactly when the source's spatial dimensions
differ from the declared ones — when they match, the original image's pixels
are converted directly (no resampling applied); when they differ, the pixels
of `resize`'s output at the declared size are converted. -/
theorem claim_C4 {α : Type} (resize : Mat → Nat → Nat → Mat) (cast : ℚ → α)
    (frame : Mat) (blob : Blob α) (s : ℚ) (b : Nat) :
    (blob.width = frame.width ∧ blob.height = frame.height →
      matU8ToBlob resize cast frame blob s b = convertPixels cast frame blob s b) ∧
    (¬(blob.width = frame.width ∧ blob.height = frame.height) →
      matU8ToBlob resize cast frame blob s b =
        convertPixels cast (resize frame blob.width blob.height) blob s b) := by
  constructor
  · rintro ⟨hbw, hbh⟩
    exact matU8ToBlob_dims_eq resize cast s b hbw hbh
  · intro hne
    exact matU8ToBlob_dims_ne resize cast s b (not_and_or.1 hne)

theorem claim_C4_witness :
    matU8ToBlob idResize (id : ℚ → ℚ) testMat testBlob 1 0 =
      convertPixels id testMat testBlob 1 0 :=
  (claim_C4 idResize id testMat testBlob 1 0).1 ⟨rfl, rfl⟩

theorem submitRequest_snd {α : Type} (st : BaseInference α) :
    (BaseInference.submitRequest st).2 = st := by
  cases h : st.engine_ <;> simp [BaseInference.submitRequest, h]

/-- C5: after N successful enqueue calls (1 ≤ N ≤ capacity) followed by
submit and fetchResults, the enqueued count is 0 again and the engine
accepts a further `max_batch_size_` successful enqueue calls before
rejecting the next one. -/
theorem claim_C5 {α : Type} (resize : Mat → Nat → Nat → Mat) (cast : ℚ → α)
    (frame : Mat) (rect : Rect) (s : ℚ) (b : Nat) (name : String)
    (parse : Engine α → List Result) {st0 : BaseInference α} {eng : Engine α}
    (N : Nat) (heng : st0.engine_ = some eng) (hcnt : st0.enqueued_frames = 0)
    (h3 : frame.channels = 3) (h8 : frame.depth = 8)
    (hbw : (eng.blobs name).width = frame.width)
    (hbh : (eng.blobs name).height = frame.height)
    (hbc : (eng.blobs name).channels ≤ 3)
    (hN1 : 1 ≤ N) (hNmax : N ≤ st0.max_batch_size_) :
    ∃ st₁ st₃,
      repeatEnqueue resize cast frame rect s b name N st0 = some st₁ ∧
      st₁.enqueued_frames = N ∧
      (BaseInference.fetchResults parse
        (BaseInference.submitRequest st₁).2).enqueued_frames = 0 ∧
      repeatEnqueue resize cast frame rect s b name st0.max_batch_size_
        (BaseInference.fetchResults parse (BaseInference.submitRequest st₁).2) =
        some st₃ ∧
      st₃.enqueued_frames = st₃.max_batch_size_ ∧
      BaseInference.enqueue resize cast st₃ frame rect s b name =
        some (false, st₃) := by
  obtain ⟨st₁, eng₁, hrep₁, heng₁, hbw₁, hbh₁, hbc₁, hcnt₁, hmax₁⟩ :=
    repeatEnqueue_ok resize cast frame rect s b name h3 h8 N st0 eng heng hbw hbh hbc
      (by omega)
  have hsub : (BaseInference.submitRequest st₁).2 = st₁ := submitRequest_snd st₁
  set st₂ := BaseInference.fetchResults parse (BaseInference.submitRequest st₁).2
    with hst₂
  have hcnt₂ : st₂.enqueued_frames = 0 := by rw [hst₂, hsub]; rfl
  have heng₂ : st₂.engine_ = some eng₁ := by rw [hst₂, hsub]; exact heng₁
  have hmax₂ : st₂.max_batch_size_ = st0.max_batch_size_ := by
    rw [hst₂, hsub]; exact hmax₁
  obtain ⟨st₃, eng₃, hrep₃, heng₃, hbw₃, hbh₃, hbc₃, hcnt₃, hmax₃⟩ :=
    repeatEnqueue_ok resize cast frame rect s b name h3 h8 st0.max_batch_size_
      st₂ eng₁ heng₂ hbw₁ hbh₁ hbc₁ (by omega)
  refine ⟨st₁, st₃, hrep₁, by omega, hcnt₂, hrep₃, by omega, ?_⟩
  exact enqueue_full resize cast st₃ frame rect s b name (by omega)

theorem claim_C5_witness :
    ∃ st₁ st₃,
      repeatEnqueue idResize id testMat testRect 1 0 "input" 1 freshState = some st₁ ∧
      st₁.enqueued_frames = 1 ∧
      (BaseInference.fetchResults (fun _ => [])
        (BaseInference.submitRequest st₁).2).enqueued_frames = 0 ∧
      repeatEnqueue idResize id testMat testRect 1 0 "input"
        freshState.max_batch_size_
        (BaseInference.fetchResults (fun _ => [])
          (BaseInference.submitRequest st₁).2) = some st₃ ∧
      st₃.enqueued_frames = st₃.max_batch_size_ ∧
      BaseInference.enqueue idResize id st₃ testMat testRect 1 0 "input" =
        some (false, st₃) :=
  claim_C5 idResize id testMat testRect 1 0 "input" (fun _ => []) 1
    (rfl : freshState.engine_ = some testEngine) rfl rfl rfl rfl rfl (by decide)
    (by decide) (by decide)

/-- C6: the license-plate decoding of an output whose first sentinel sits at
position k < 88 (the declared maximum sequence size, fixed at construction)
yields exactly k entries, and no decoded output ever exceeds the declared
maximum. -/
theorem claim_C6 (output : Nat → Int) (k : Nat)
    (hk : k < LicensePlateDetectionModel.max_sequence_size)
    (hsent : output k = licensePlateSentinel)
    (hbefore : ∀ i, i < k → output i ≠ licensePlateSentinel) :
    (decodeLicensePlate output).length = k ∧
    (∀ out : Nat → Int, (decodeLicensePlate out).length ≤
      LicensePlateDetectionModel.max_sequence_size) := by
  constructor
  · rw [decodeLicensePlate]
    exact decodeSequence_length_of_sentinel output
      LicensePlateDetectionModel.max_sequence_size 0 k hk (by simpa using hsent)
      (fun j hj => by simpa using hbefore j hj)
  · intro out
    rw [decodeLicensePlate]
    exact decodeSequence_length_le out LicensePlateDetectionModel.max_sequence_size 0

/-- A decoded output with its first sentinel at position 3. -/
def testOutput : Nat → Int := fun i => if i < 3 then 7 else licensePlateSentinel

theorem claim_C6_witness :
    (decodeLicensePlate testOutput).length = 3 ∧
    (∀ out : Nat → Int, (decodeLicensePlate out).length ≤
      LicensePlateDetectionModel.max_sequence_size) :=
  claim_C6 testOutput 3 (by decide) (by decide) (by decide)

/-- C7: a `Result` constructed from rectangle R returns exactly R from
`getLocation`; no engine operation mutates an existing result's rectangle —
`enqueue` and `submitRequest` leave the result buffer untouched — and
`fetchResults` replaces the buffer wholesale with the freshly parsed
results. -/
theorem claim_C7 :
    (∀ R : Rect, (Result.make R).getLocation = R) ∧
    (∀ (α : Type) (resize : Mat → Nat → Nat → Mat) (cast : ℚ → α)
      (st : BaseInference α) (frame : Mat) (rect : Rect) (s : ℚ) (b : Nat)
      (name : String) (res : Bool × BaseInference α),
      BaseInference.enqueue resize cast st frame rect s b name = some res →
      res.2.results_ = st.results_) ∧
    (∀ (α : Type) (st : BaseInference α),
      (BaseInference.submitRequest st).2.results_ = st.results_) ∧
    (∀ (α : Type) (parse : Engine α → List Result) (st : BaseInference α)
      (eng : Engine α), st.engine_ = some eng →
      (BaseInference.fetchResults parse st).results_ = parse eng) := by
  refine ⟨fun R => rfl, ?_, ?_, ?_⟩
  · intro α resize cast st frame rect s b name res h
    rw [BaseInference.enqueue] at h
    by_cases hfull : st.enqueued_frames = st.max_batch_size_
    · rw [if_pos hfull] at h
      have h2 := Option.some.inj h
      rw [← h2]
    · rw [if_neg hfull] at h
      cases heng : st.engine_ with
      | none => rw [heng] at h; exact absurd h (by simp)
      | some eng =>
        rw [heng] at h
        cases hm : matU8ToBlob resize cast frame (eng.blobs name) s b with
        | none =>
          simp only [hm] at h
          exact absurd h (by simp)
        | some blob' =>
          simp only [hm] at h
          have h2 := Option.some.inj h
          rw [← h2]
  · intro α st
    rw [submitRequest_snd]
  · intro α parse st eng heng
    simp [BaseInference.fetchResults, heng]

theorem claim_C7_witness :
    (Result.make testRect).getLocation = testRect ∧
    (BaseInference.fetchResults (fun _ => [Result.make testRect])
      freshState).results_ = [Result.make testRect] ∧
    (BaseInference.submitRequest freshState).2.results_ = freshState.results_ ∧
    (false, fullState).2.results_ = fullState.results_ :=
  ⟨claim_C7.1 testRect,
    claim_C7.2.2.2 ℚ (fun _ => [Result.make testRect]) freshState testEngine rfl,
    claim_C7.2.2.1 ℚ freshState,
    claim_C7.2.1 ℚ idResize id fullState testMat testRect 1 0 "input"
      (false, fullState)
      (enqueue_full idResize id fullState testMat testRect 1 0 "input" rfl)⟩

/-- C8: fetch in `Idle` (no prior submit) is a precondition violation that
fails loudly, and a second submit without an intervening fetch — submit from
the `Submitted` state every successful submit lands in — is likewise a
precondition violation; neither is silently absorbed. -/
theorem claim_C8 :
    fetchPhase Phase.Idle = Except.error LifecycleFault.PreconditionViolation ∧
    (∀ p q : Phase, submitPhase p = Except.ok q →
      submitPhase q = Except.error LifecycleFault.PreconditionViolation) := by
  refine ⟨rfl, ?_⟩
  intro p q hp
  cases p with
  | Idle => exact absurd hp (by simp [submitPhase])
  | Submitted => exact absurd hp (by simp [submitPhase])
  | Enqueuing =>
    simp only [submitPhase] at hp
    injection hp with h
    subst h
    rfl

theorem claim_C8_witness :
    submitPhase Phase.Enqueuing = Except.ok Phase.Submitted ∧
    fetchPhase Phase.Idle = Except.error LifecycleFault.PreconditionViolation ∧
    submitPhase Phase.Submitted = Except.error LifecycleFault.PreconditionViolation :=
  ⟨rfl, claim_C8.1, claim_C8.2 Phase.Enqueuing Phase.Submitted rfl⟩

/-- C9: a below-capacity enqueue call dereferences the engine handle
unconditionally — with no engine bound it faults rather than returning a
failure value — so any non-faulting outcome requires a bound engine, which
only `loadEngine` provides. -/
theorem claim_C9 {α : Type} (resize : Mat → Nat → Nat → Mat) (cast : ℚ → α)
    (st : BaseInference α) (frame : Mat) (rect : Rect) (s : ℚ) (b : Nat)
    (name : String) (hlt : st.enqueued_frames < st.max_batch_size_) :
    (st.engine_ = none →
      BaseInference.enqueue resize cast st frame rect s b name = none) ∧
    (∀ res, BaseInference.enqueue resize cast st frame rect s b name = some res →
      st.engine_.isSome) ∧
    (∀ eng : Engine α, (st.loadEngine eng).engine_ = some eng) := by
  have hne : st.enqueued_frames ≠ st.max_batch_size_ := Nat.ne_of_lt hlt
  refine ⟨?_, ?_, fun eng => rfl⟩
  · intro heng
    rw [BaseInference.enqueue, if_neg hne, heng]
  · intro res h
    cases heng : st.engine_ with
    | none =>
      rw [BaseInference.enqueue, if_neg hne, heng] at h
      exact absurd h (by simp)
    | some eng => rfl

theorem claim_C9_witness :
    unboundState.enqueued_frames < unboundState.max_batch_size_ ∧
    BaseInference.enqueue idResize id unboundState testMat testRect 1 0 "input" =
      none ∧
    (unboundState.loadEngine testEngine).engine_ = some testEngine :=
  ⟨by decide,
    (claim_C9 idResize id unboundState testMat testRect 1 0 "input" (by decide)).1 rfl,
    (claim_C9 idResize id unboundState testMat testRect 1 0 "input"
      (by decide)).2.2 testEngine⟩

/-- C10: on a buffer with matching spatial dims and positive extents, the
conversion completes without fault exactly when the source image is
3-channel 8-bit and the buffer's declared channel count is at most 3 — each
read is `at<Vec3b>(h, w)[c]`, a 3-channel 8-bit access, regardless of the
declared channel count. -/
theorem claim_C10 {α : Type} (resize : Mat → Nat → Nat → Mat) (cast : ℚ → α)
    (frame : Mat) (blob : Blob α) (s : ℚ) (b : Nat)
    (hbw : blob.width = frame.width) (hbh : blob.height = frame.height)
    (hW : 0 < blob.width) (hH : 0 < blob.height) (hC : 0 < blob.channels) :
    (matU8ToBlob resize cast frame blob s b).isSome ↔
      (frame.channels = 3 ∧ frame.depth = 8 ∧ blob.channels ≤ 3) := by
  rw [matU8ToBlob_dims_eq resize cast s b hbw hbh]
  constructor
  · intro hsome
    by_contra hbad
    rcases Classical.em (frame.channels = 3 ∧ frame.depth = 8) with hgood | hnot
    · have hgt : 3 < blob.channels := by
        rcases hgood with ⟨a3, a8⟩
        by_contra hle
        exact hbad ⟨a3, a8, by omega⟩
      have hnone : convertPixels cast frame blob s b = none :=
        convertPixels_none cast blob s b hH hW (c := 3) hgt (by omega)
      rw [hnone] at hsome
      exact absurd hsome (by simp)
    · have hnone : convertPixels cast frame blob s b = none :=
        convertPixels_none cast blob s b hH hW (c := 0) hC
          (fun hx => hnot ⟨hx.1, hx.2.1⟩)
      rw [hnone] at hsome
      exact absurd hsome (by simp)
  · rintro ⟨h3, h8, hc3⟩
    obtain ⟨blob', heq, _⟩ := convertPixels_some cast blob s b h3 h8 hc3
    rw [heq]
    rfl

theorem claim_C10_witness :
    (matU8ToBlob idResize (id : ℚ → ℚ) testMat testBlob 1 0).isSome :=
  (claim_C10 idResize id testMat testBlob 1 0 rfl rfl (by decide) (by decide)
    (by decide)).2 ⟨rfl, rfl, by decide⟩
